import Mathlib

/-!
Verification development for `src/ingestion/save_corpus.py` (v4).

The Python module is shallowly embedded below.  Pure helpers become Lean
functions; effectful steps (network GET, file writes, hashing, the external
HTML libraries) are represented by explicit oracle parameters, and the data
that the Python code would write (file bytes, metadata lines) is returned as
values so that it can be reasoned about.  Machine-level details that the
claims do not touch (actual SHA-256 arithmetic, the HTTP client internals,
the BeautifulSoup DOM) stay abstract: only their call structure, as written
in the source, is modelled.

Python string methods (`split`, `replace`, `endswith`, ...) are modelled by
executable character-list functions so that every definition reduces inside
the kernel.
-/

/-- Bool test that the first character list is a prefix of the second
(used to model Python substring search). -/
def listStartsWith : List Char → List Char → Bool
  | [], _ => true
  | _ :: _, [] => false
  | a :: as, b :: bs => a == b && listStartsWith as bs

/-- Python `pat in s` (substring containment), executable model. -/
def strContains (s pat : String) : Bool :=
  go s.toList pat.toList
where
  go : List Char → List Char → Bool
    | [], p => p.isEmpty
    | c :: rest, p => listStartsWith p (c :: rest) || go rest p

/-- Python `s.startswith(pre)`. -/
def pyStartsWith (s pre : String) : Bool :=
  listStartsWith pre.toList s.toList

/-- Python `s.endswith(suf)`. -/
def pyEndsWith (s suf : String) : Bool :=
  listStartsWith suf.toList.reverse s.toList.reverse

/-- Fuel-based scanner behind `pySplit`; fuel strictly exceeding the list
length makes the fuel-exhausted branch unreachable for nonempty sep. -/
def pySplitAux (sep : List Char) : Nat → List Char → List (List Char)
  | 0, cs => [cs]
  | _ + 1, [] => [[]]
  | fuel + 1, c :: rest =>
    if !sep.isEmpty && listStartsWith sep (c :: rest) then
      [] :: pySplitAux sep fuel ((c :: rest).drop sep.length)
    else
      match pySplitAux sep fuel rest with
      | [] => [[c]]
      | w :: ws => (c :: w) :: ws

/-- Python `s.split(sep)` for a nonempty separator. -/
def pySplit (s sep : String) : List String :=
  (pySplitAux sep.toList (s.toList.length + 1) s.toList).map String.mk

/-- Fuel-based scanner behind `pyReplace`. -/
def pyReplaceAux (old new : List Char) : Nat → List Char → List Char
  | 0, cs => cs
  | _ + 1, [] => []
  | fuel + 1, c :: rest =>
    if !old.isEmpty && listStartsWith old (c :: rest) then
      new ++ pyReplaceAux old new fuel ((c :: rest).drop old.length)
    else
      c :: pyReplaceAux old new fuel rest

/-- Python `s.replace(old, new)` for a nonempty pattern. -/
def pyReplace (s old new : String) : String :=
  String.mk (pyReplaceAux old.toList new.toList (s.toList.length + 1) s.toList)

/-- Python `s.strip()` restricted to ASCII whitespace. -/
def pyStrip (s : String) : String :=
  String.mk (((s.toList.dropWhile Char.isWhitespace).reverse.dropWhile
    Char.isWhitespace).reverse)

/-- Python `s.rstrip("/")`. -/
def rstripSlash (s : String) : String :=
  String.mk ((s.toList.reverse.dropWhile (fun c => c == '/')).reverse)

/-- The uppercase-to-lowercase table backing the ASCII case mapping used by
Python's `str.lower` and by `python-slugify`. -/
def upperLowerTable : List (Char × Char) :=
  [('A', 'a'), ('B', 'b'), ('C', 'c'), ('D', 'd'), ('E', 'e'), ('F', 'f'),
   ('G', 'g'), ('H', 'h'), ('I', 'i'), ('J', 'j'), ('K', 'k'), ('L', 'l'),
   ('M', 'm'), ('N', 'n'), ('O', 'o'), ('P', 'p'), ('Q', 'q'), ('R', 'r'),
   ('S', 's'), ('T', 't'), ('U', 'u'), ('V', 'v'), ('W', 'w'), ('X', 'x'),
   ('Y', 'y'), ('Z', 'z')]

/-- ASCII lowercase of one character (identity outside `A`-`Z`). -/
def lowerChar (c : Char) : Char :=
  match upperLowerTable.find? (fun p => p.1 == c) with
  | some p => p.2
  | none => c

/-- Python `s.lower()` restricted to ASCII case mapping. -/
def pyLower (s : String) : String :=
  String.mk (s.toList.map lowerChar)

/-- Split a character list at the first character satisfying `stop`:
returns the characters before it and the remainder (beginning with it). -/
def takeUntilChar (stop : Char → Bool) : List Char → List Char × List Char
  | [] => ([], [])
  | c :: rest =>
    if stop c then ([], c :: rest)
    else
      let r := takeUntilChar stop rest
      (c :: r.1, r.2)

/-- Characters CPython's `urllib.parse` accepts inside a URL scheme. -/
def schemeCharOk (c : Char) : Bool :=
  c.isAlphanum || c == '+' || c == '-' || c == '.'

/-- Result of `urllib.parse.urlparse`, restricted to the fields the
source uses (`netloc` and `path`; `scheme`/`query`/`fragment` are kept for
faithful splitting). -/
structure UrlParts where
  scheme : String
  netloc : String
  path : String
  query : String
  fragment : String
  deriving Repr, DecidableEq

/-- Model of `urllib.parse.urlparse`: strip a valid `scheme:`, then a
`//netloc` ending at `/`, `?` or `#`, then split off `#fragment` and
`?query`; the rest is the path. -/
def urlparse (url : String) : UrlParts :=
  let cs := url.toList
  let sp := takeUntilChar (fun c => c == ':') cs
  let hasScheme := !sp.2.isEmpty && !sp.1.isEmpty && sp.1.all schemeCharOk
  let rest := if hasScheme then sp.2.drop 1 else cs
  let scheme := if hasScheme then String.mk (sp.1.map lowerChar) else ""
  let netsplit :=
    match rest with
    | '/' :: '/' :: r =>
      let np := takeUntilChar (fun c => c == '/' || c == '?' || c == '#') r
      (String.mk np.1, np.2)
    | _ => ("", rest)
  let fragsplit := takeUntilChar (fun c => c == '#') netsplit.2
  let querysplit := takeUntilChar (fun c => c == '?') fragsplit.1
  { scheme := scheme, netloc := netsplit.1, path := String.mk querysplit.1,
    query := String.mk (querysplit.2.drop 1),
    fragment := String.mk (fragsplit.2.drop 1) }

/-- Per-character behaviour of the external `slugify` library on ASCII
input: digits and lowercase letters are kept, uppercase letters are
lowercased, every other character acts as a separator (`none`). -/
def keepChar (c : Char) : Option Char :=
  if c.isDigit || c.isLower then some c
  else
    match upperLowerTable.find? (fun p => p.1 == c) with
    | some p => some p.2
    | none => none

/-- Splits a character list into the maximal runs of kept characters
(each already case-mapped); separator characters delimit the runs. -/
def slugWords : List Char → List Char → List (List Char)
  | [], acc => if acc = [] then [] else [acc]
  | c :: rest, acc =>
    match keepChar c with
    | some c2 => slugWords rest (acc ++ [c2])
    | none => if acc = [] then slugWords rest [] else acc :: slugWords rest []

/-- Joins slug words with single hyphens. -/
def joinHyphen : List (List Char) → List Char
  | [] => []
  | [w] => w
  | w :: ws => w ++ '-' :: joinHyphen ws

/-- Model of the external `slugify` function on ASCII text: lowercase,
collapse every run of non-alphanumeric characters into one hyphen, strip
leading and trailing hyphens.  (On non-ASCII input `python-slugify`
first transliterates; the model treats such characters as separators.) -/
def slugify (s : String) : String :=
  String.mk (joinHyphen (slugWords s.toList []))

/-- `filename_from_url` from the source: last non-empty path segment
(or `"index"`), host with `"www."` occurrences removed, slugified
`"{host}-{path}"` truncated to 120 characters, falling back to
`slugify host` when that is empty. -/
def filename_from_url (url : String) : String :=
  let seg0 := (pySplit (rstripSlash (urlparse url).path) "/").getLastD ""
  let seg := if seg0 = "" then "index" else seg0
  let host := pyReplace (urlparse url).netloc "www." ""
  let base := String.mk ((slugify (host ++ "-" ++ seg)).toList.take 120)
  if base = "" then slugify host else base

/-- The non-empty segments of a URL's path
(`[p for p in path.split("/") if p]`). -/
def pathParts (url : String) : List String :=
  (pySplit (urlparse url).path "/").filter (fun p => p != "")

/-- `mdn_raw_fallback` from the source: for URLs mentioning
`developer.mozilla.org`, rebuild the GitHub raw-content URL from the path
segments after the first `docs` segment, lowercased with `.` → `-`. -/
def mdn_raw_fallback (url : String) : Option String :=
  if strContains url "developer.mozilla.org" = false then none
  else
    let parts := pathParts url
    match parts.findIdx? (fun p => p == "docs") with
    | none => none
    | some i =>
      let parts2 := (parts.drop (i + 1)).map (fun p => pyReplace (pyLower p) "." "-")
      some ("https://raw.githubusercontent.com/mdn/content/main/" ++
        String.intercalate "/" (["files"] ++ parts2 ++ ["index.md"]))

/-- `pandas_alt_candidates` from the source: stable-path rewrites under
`/docs/user_guide/` plus a GitHub raw `.rst` candidate for `.html` pages. -/
def pandas_alt_candidates (url : String) : List String :=
  if strContains url "pandas.pydata.org" = false then []
  else
    let path := (urlparse url).path
    let alts :=
      if pyStartsWith path "/docs/user_guide/" then
        let tail := String.intercalate "/docs/user_guide/"
          ((pySplit path "/docs/user_guide/").drop 1)
        ["https://pandas.pydata.org/pandas-docs/version/stable/user_guide/" ++ tail,
         "https://pandas.pydata.org/pandas-docs/stable/user_guide/" ++ tail]
      else []
    let basename := (pySplit (rstripSlash path) "/").getLastD ""
    if pyEndsWith basename ".html" then
      let rst := String.mk (basename.toList.take (basename.toList.length - 5)) ++ ".rst"
      alts ++ ["https://raw.githubusercontent.com/pandas-dev/pandas/main/doc/source/user_guide/" ++ rst]
    else alts

/-- The candidate list `robust_get` builds before its retry loop:
the original URL, then the pandas alternates, then the MDN raw fallback. -/
def robust_get_candidates (url : String) : List String :=
  let candidates := [url]
  let candidates := candidates ++ pandas_alt_candidates url
  let candidates := candidates ++
    (if strContains url "developer.mozilla.org" then
      match mdn_raw_fallback url with
      | some fb => [fb]
      | none => []
    else [])
  candidates

/-- `MAX_RETRIES` from the source config. -/
def MAX_RETRIES : Nat := 3

/-- `RETRY_BACKOFF` from the source config (base of the backoff exponent). -/
def RETRY_BACKOFF : Nat := 2

/-- The inner retry loop of `robust_get` for one candidate, over the listed
attempt numbers.  `net cand a` is the outcome of
`requests.get(cand) ; raise_for_status()` on attempt `a`.  Returns the
attempts performed, the sleeps executed (`RETRY_BACKOFF ** attempt`, skipped
after the final attempt), and either the first successful response or the
threaded most-recent exception (`last_exc`). -/
def runAttempts {ε ρ : Type} (net : String → Nat → Except ε ρ) (cand : String) :
    List Nat → Option ε → List (String × Nat) × List Nat × Except (Option ε) ρ
  | [], lastExc => ([], [], Except.error lastExc)
  | a :: rest, _lastExc =>
    match net cand a with
    | Except.ok r => ([(cand, a)], [], Except.ok r)
    | Except.error e =>
      let t := runAttempts net cand rest (some e)
      ((cand, a) :: t.1,
       (if rest.isEmpty then [] else [RETRY_BACKOFF ^ a]) ++ t.2.1,
       t.2.2)

/-- Execution trace of `robust_get`: the `(candidate, attemptNumber)` pairs
tried in order, the backoff sleeps in order, and either
`(response, used_url)` or the raised `last_exc` (`none` would mean an empty
candidate list, which `robust_get` never produces). -/
structure FetchTrace (ε ρ : Type) where
  attempts : List (String × Nat)
  sleeps : List Nat
  outcome : Except (Option ε) (ρ × String)
  deriving Repr

/-- The outer loop of `robust_get` over the candidate list, threading
`last_exc`; each candidate gets attempts `1..MAX_RETRIES` and the first
success returns immediately with the serving candidate. -/
def runCandidates {ε ρ : Type} (net : String → Nat → Except ε ρ) :
    List String → Option ε → FetchTrace ε ρ
  | [], lastExc => ⟨[], [], Except.error lastExc⟩
  | c :: cs, lastExc =>
    let t := runAttempts net c (List.range' 1 MAX_RETRIES) lastExc
    match t.2.2 with
    | Except.ok r => ⟨t.1, t.2.1, Except.ok (r, c)⟩
    | Except.error le =>
      let restT := runCandidates net cs le
      ⟨t.1 ++ restT.attempts, t.2.1 ++ restT.sleeps, restT.outcome⟩

/-- `robust_get` from the source: build the candidate list, then run the
retry loops. -/
def robust_get {ε ρ : Type} (net : String → Nat → Except ε ρ) (url : String) :
    FetchTrace ε ρ :=
  runCandidates net (robust_get_candidates url) none

/-- The attempt trace of candidates that each fail all three tries. -/
def tripleAttempts : List String → List (String × Nat)
  | [] => []
  | c :: rest => [(c, 1), (c, 2), (c, 3)] ++ tripleAttempts rest

/-- The sleep trace of candidates that each fail all three tries:
`2 ** 1` and `2 ** 2` seconds per candidate, none after the third try. -/
def allSleeps : List String → List Nat
  | [] => []
  | _ :: rest => [2, 4] ++ allSleeps rest

/-- The fields of a `requests` response that `download_one` reads.
`text` is the body as decoded by the `requests` library itself
(`r.text`), carried as data since its decoding logic is external. -/
structure HttpResponse where
  contentTypeHeader : Option String
  encoding : Option String
  content : List Nat
  text : String
  deriving Repr, DecidableEq

/-- One line of `data/metadata.jsonl`, with the fields `download_one`
passes to `save_metadata`. -/
structure MetaRecord where
  url : String
  downloaded_from : String
  saved_as : String
  content_type : String
  title : String
  sha256 : String
  saved_at : String
  tags : List String
  deriving Repr, DecidableEq

/-- Everything `download_one` persists for one item: the bytes written to
the primary artifact file, the metadata record, the optional markdown
companion `(path, text)` of the HTML branch, and the PDF output path handed
to the renderer when `--pdf` is set on an HTML item. -/
structure DownloadOutcome where
  fileBytes : List Nat
  record : MetaRecord
  companion : Option (String × String)
  renderTarget : Option String
  deriving Repr, DecidableEq

/-- `(r.headers.get("Content-Type") or "").split(";")[0].lower()`. -/
def ctypeOf (r : HttpResponse) : String :=
  pyLower ((pySplit (r.contentTypeHeader.getD "") ";").headD "")

/-- Python `x or "utf-8"` on an optional string (`None` and `""` both fall
back). -/
def encOr (x : Option String) : String :=
  match x with
  | none => "utf-8"
  | some e => if e = "" then "utf-8" else e

/-- The body of `download_one` after the `robust_get` call, as a pure
function.  Oracles: `sha` for `hashlib.sha256(..).hexdigest()`, `encode`
for `str.encode(enc, errors="ignore")` (used by `write_text`), `decode`
for `bytes.decode(enc, errors="ignore")`, `extractTitle` for
`extract_title_from_html_str` (returns `""` on failure), `toMd` for
`to_markdown_readability` (fallible; the caller catches), `ts` for the
timestamp.  `url` is the original URL, `r`/`used_url` the fetch result. -/
def download_one (sha : List Nat → String) (encode : String → String → List Nat)
    (decode : List Nat → String → String) (extractTitle : String → String)
    (toMd : List Nat → String → Except Unit String) (ts : String)
    (url : String) (r : HttpResponse) (used_url : String) (render_pdf : Bool) :
    DownloadOutcome :=
  let ctype := ctypeOf r
  let enc := encOr r.encoding
  let b := r.content
  let digest := sha b
  let base := filename_from_url url
  if ctype == "application/pdf" || pyEndsWith (pyLower used_url) ".pdf" then
    { fileBytes := b,
      record := { url := url, downloaded_from := used_url,
                  saved_as := "data/pdf/" ++ base ++ ".pdf",
                  content_type := "pdf", title := "", sha256 := digest,
                  saved_at := ts, tags := ["techdocs"] },
      companion := none, renderTarget := none }
  else if pyEndsWith used_url ".md" || strContains ctype "text/markdown" ||
      pyEndsWith used_url ".rst" then
    let ext := if pyEndsWith used_url ".md" then ".md" else ".rst"
    { fileBytes := encode r.text enc,
      record := { url := url, downloaded_from := used_url,
                  saved_as := "data/md/" ++ base ++ ext,
                  content_type := if ext == ".md" then "markdown" else "rst",
                  title := pyReplace base "-" " ", sha256 := digest,
                  saved_at := ts, tags := ["techdocs"] },
      companion := none, renderTarget := none }
  else
    let titleRaw := extractTitle (decode b enc)
    let title := if titleRaw = "" then pyReplace base "-" " " else titleRaw
    let md_text := match toMd b enc with
      | Except.ok t => t
      | Except.error _ => ""
    { fileBytes := b,
      record := { url := url, downloaded_from := used_url,
                  saved_as := "data/html/" ++ base ++ ".html",
                  content_type := "html", title := title, sha256 := digest,
                  saved_at := ts, tags := ["techdocs"] },
      companion := if md_text = "" then none
        else some ("data/md/" ++ base ++ ".md", md_text),
      renderTarget := if render_pdf then some ("data/pdf/" ++ base ++ ".pdf")
        else none }

/-- The external calls `to_markdown_readability` makes, as fallible
oracles: `decode` is `bytes.decode(enc, errors="ignore")` (raises
`LookupError` on an unknown encoding name), `summary` is
`Document(html).summary(html_partial=True)`, `mdifyF` is `markdownify`,
`structuralMd` is the BeautifulSoup heading/paragraph walk of lines 90-102,
`fullParseClean` is the full-page parse plus script/style/noscript removal,
and `flatten` is the heading/paragraph flattening of line 114. -/
structure ExtractorLibs (ε : Type) where
  decode : List Nat → String → Except ε String
  summary : String → Except ε String
  mdifyF : String → Except ε String
  structuralMd : String → Except ε String
  fullParseClean : String → Except ε String
  flatten : String → Except ε String

/-- The `try` block of `to_markdown_readability` (lines 81-106): the
readability summary, then markdownify or the structural walk; `none` means
the block fell through (an internal exception was caught, the summary was
empty, or the structural markdown came out empty), `some` means it
returned. -/
def extractorTryBlock {ε : Type} (L : ExtractorLibs ε) (useMdify : Bool)
    (html_str : String) : Option String :=
  match L.summary html_str with
  | Except.error _ => none
  | Except.ok article_html =>
    if article_html = "" then none
    else if useMdify then
      match L.mdifyF article_html with
      | Except.error _ => none
      | Except.ok m => some (pyStrip m)
    else
      match L.structuralMd article_html with
      | Except.error _ => none
      | Except.ok md => if md = "" then none else some md

/-- The lines of `to_markdown_readability` after the `try` block: the
unprotected full-page fallback. -/
def extractorFallback {ε : Type} (L : ExtractorLibs ε) (useMdify : Bool)
    (html_str : String) : Except ε String :=
  match L.fullParseClean html_str with
  | Except.error e => Except.error e
  | Except.ok cleaned =>
    if useMdify then
      match L.mdifyF cleaned with
      | Except.error e => Except.error e
      | Except.ok m => Except.ok (pyStrip m)
    else
      match L.flatten cleaned with
      | Except.error e => Except.error e
      | Except.ok t => Except.ok (pyStrip t)

/-- `to_markdown_readability` itself: unprotected decode, then the `try`
block, then — on fall-through — the unprotected full-page fallback. -/
def to_markdown_readability {ε : Type} (L : ExtractorLibs ε) (useMdify : Bool)
    (html_bytes : List Nat) (encoding_hint : Option String) : Except ε String :=
  let enc := encOr encoding_hint
  match L.decode html_bytes enc with
  | Except.error e => Except.error e
  | Except.ok html_str =>
    match extractorTryBlock L useMdify html_str with
    | some md => Except.ok md
    | none => extractorFallback L useMdify html_str

/-- `save_metadata` from the source: append one JSON line to the log. -/
def save_metadata (log : List String) (record : String) : List String :=
  log ++ [record]

/-- Aggregate state of one `main` run: the OK / FAIL counters, the
metadata-log lines, and the per-item failures printed to stderr. -/
structure RunSummary (ε : Type) where
  ok : Nat
  fail : Nat
  log : List String
  failures : List (String × ε)
  deriving Repr, DecidableEq

/-- The driver loop of `main`: truncate the metadata log (whatever
`priorLog` held), then process each URL in order, counting a success and
appending its record line, or catching the raised error, recording it with
the URL, and continuing.  `proc u` abstracts
`download_one(u, render_pdf)` and yields the metadata line it would append
or the exception it would raise. -/
def mainStep {ε : Type} (proc : String → Except ε String) (st : RunSummary ε)
    (u : String) : RunSummary ε :=
  match proc u with
  | Except.ok rec =>
    { st with ok := st.ok + 1, log := save_metadata st.log rec }
  | Except.error e =>
    { st with fail := st.fail + 1, failures := st.failures ++ [(u, e)] }

/-- The whole driver loop; `priorLog` is whatever `data/metadata.jsonl` held
before the run and is discarded by the `META.write_text("")` reset. -/
def mainRun {ε : Type} (proc : String → Except ε String) (urls : List String)
    (priorLog : List String) : RunSummary ε :=
  let _ := priorLog
  urls.foldl (mainStep proc) { ok := 0, fail := 0, log := [], failures := [] }

/-- Bool success test for `Except`. -/
def exceptOk {ε α : Type} : Except ε α → Bool
  | Except.ok _ => true
  | Except.error _ => false

/-- The classification the dispatcher actually implements, written as the
amended claim states it: `pdf` on content type `application/pdf` or a
(lowercased) served URL ending `.pdf`; else `markdown` only when the served
URL ends `.md`; else `rst` when the content type contains `text/markdown`
or the served URL ends `.rst`; else `html`. -/
def classify_spec (used_url ctype : String) : String :=
  if ctype == "application/pdf" || pyEndsWith (pyLower used_url) ".pdf" then "pdf"
  else if pyEndsWith used_url ".md" then "markdown"
  else if strContains ctype "text/markdown" || pyEndsWith used_url ".rst" then "rst"
  else "html"

/-- File extension the dispatcher uses for each content kind. -/
def extForKind (kind : String) : String :=
  if kind = "pdf" then ".pdf"
  else if kind = "markdown" then ".md"
  else if kind = "rst" then ".rst"
  else ".html"

/-- `deriveBaseName` as the amended claim words it: last non-empty path
segment (default `"index"`), host with every occurrence of `"www."`
removed, `"{host}-{segment}"` slugified and truncated to 120 characters,
possibly empty when the URL offers no alphanumeric characters. -/
def deriveBaseName_spec (url : String) : String :=
  let host := pyReplace (urlparse url).netloc "www." ""
  let seg0 := (pySplit (rstripSlash (urlparse url).path) "/").getLastD ""
  let seg := if seg0 = "" then "index" else seg0
  let truncated := String.mk ((slugify (host ++ "-" ++ seg)).toList.take 120)
  if truncated = "" then slugify host else truncated

/-- A character allowed in a slug: lowercase ASCII letter, digit, hyphen. -/
def isSlugChar (c : Char) : Bool :=
  c.isDigit || c.isLower || c == '-'

example : slugify "Hello, World!" = "hello-world" := by decide
example : filename_from_url "https://pandas.pydata.org/docs/user_guide/10min.html" =
    "pandas-pydata-org-10min-html" := by decide
example : filename_from_url "https://docs.python.org/3/howto/logging.html" =
    "docs-python-org-logging-html" := by decide
example : filename_from_url "https://www.typescriptlang.org/docs/handbook/2/generics.html" =
    "typescriptlang-org-generics-html" := by decide
example : filename_from_url "https://nodejs.org/" = "nodejs-org-index" := by decide
example : robust_get_candidates "https://pandas.pydata.org/docs/user_guide/10min.html" =
    ["https://pandas.pydata.org/docs/user_guide/10min.html",
     "https://pandas.pydata.org/pandas-docs/version/stable/user_guide/10min.html",
     "https://pandas.pydata.org/pandas-docs/stable/user_guide/10min.html",
     "https://raw.githubusercontent.com/pandas-dev/pandas/main/doc/source/user_guide/10min.rst"] := by
  decide
example : robust_get_candidates
      "https://developer.mozilla.org/en-US/docs/Web/JavaScript/Reference/Global_Objects/Promise" =
    ["https://developer.mozilla.org/en-US/docs/Web/JavaScript/Reference/Global_Objects/Promise",
     "https://raw.githubusercontent.com/mdn/content/main/files/web/javascript/reference/global_objects/promise/index.md"] := by
  decide
example : robust_get_candidates "https://docs.python.org/3/howto/logging.html" =
    ["https://docs.python.org/3/howto/logging.html"] := by decide

/-! ### Concrete fixtures used by witnesses and counterexamples -/

/-- Concrete stand-in for the SHA-256 oracle; only needs to distinguish
the byte lists occurring in the counterexample. -/
def cSha : List Nat → String :=
  fun b => toString b.length

/-- Concrete stand-in for `str.encode(enc, errors="ignore")`. -/
def cEncode : String → String → List Nat :=
  fun _ _ => []

/-- Concrete stand-in for `bytes.decode(enc, errors="ignore")`. -/
def cDecode : List Nat → String → String :=
  fun _ _ => ""

/-- Concrete stand-in for `extract_title_from_html_str`. -/
def cTitle : String → String :=
  fun _ => ""

/-- Concrete stand-in for the `to_markdown_readability` call. -/
def cToMd : List Nat → String → Except Unit String :=
  fun _ _ => Except.ok ""

/-- A response declaring `text/markdown` whose serving URL does not end in
`.md`. -/
def respMarkdownCtype : HttpResponse :=
  { contentTypeHeader := some "text/markdown; charset=utf-8", encoding := none,
    content := [], text := "hello" }

/-- A `.rst`-classified response whose written bytes (re-encoded text)
differ from the raw response bytes. -/
def respRst : HttpResponse :=
  { contentTypeHeader := none, encoding := some "ascii", content := [255],
    text := "" }

/-- A three-URL item processor for the driver-loop witness scenario:
the middle URL fails every fetch, the others succeed. -/
def procExample : String → Except String String :=
  fun u => if u = "b" then Except.error "all retries failed"
    else Except.ok ("record:" ++ u)

/-! ### Helper lemmas -/

theorem listStartsWith_append (p q : List Char) :
    listStartsWith p (p ++ q) = true := by
  induction p with
  | nil => rfl
  | cons a as ih => simp [listStartsWith, ih]

theorem pyEndsWith_append (x y : String) : pyEndsWith (x ++ y) y = true := by
  unfold pyEndsWith
  have h : (x ++ y).toList = x.toList ++ y.toList := rfl
  rw [h, List.reverse_append]
  exact listStartsWith_append _ _

theorem mainStep_fold_ok {ε : Type} (proc : String → Except ε String) :
    ∀ (urls : List String) (st : RunSummary ε),
    (urls.foldl (mainStep proc) st).ok =
      st.ok + urls.countP (fun u => exceptOk (proc u))
  | [], st => by simp
  | u :: us, st => by
    cases h : proc u <;>
      simp [mainStep, h, mainStep_fold_ok proc us, List.countP_cons, exceptOk] <;>
      try omega

theorem mainStep_fold_fail {ε : Type} (proc : String → Except ε String) :
    ∀ (urls : List String) (st : RunSummary ε),
    (urls.foldl (mainStep proc) st).fail =
      st.fail + urls.countP (fun u => !exceptOk (proc u))
  | [], st => by simp
  | u :: us, st => by
    cases h : proc u <;>
      simp [mainStep, h, mainStep_fold_fail proc us, List.countP_cons, exceptOk] <;>
      try omega

theorem mainStep_fold_log {ε : Type} (proc : String → Except ε String) :
    ∀ (urls : List String) (st : RunSummary ε),
    (urls.foldl (mainStep proc) st).log =
      st.log ++ urls.filterMap (fun u => (proc u).toOption)
  | [], st => by simp
  | u :: us, st => by
    cases h : proc u <;>
      simp [mainStep, h, mainStep_fold_log proc us, List.filterMap_cons,
        Except.toOption, save_metadata]

theorem mainStep_fold_failures {ε : Type} (proc : String → Except ε String) :
    ∀ (urls : List String) (st : RunSummary ε),
    (urls.foldl (mainStep proc) st).failures =
      st.failures ++ urls.filterMap (fun u =>
        match proc u with
        | Except.error e => some (u, e)
        | Except.ok _ => none)
  | [], st => by simp
  | u :: us, st => by
    cases h : proc u <;>
      simp [mainStep, h, mainStep_fold_failures proc us, List.filterMap_cons]

theorem countP_bool_split {α : Type} (p : α → Bool) :
    ∀ l : List α, l.countP p + l.countP (fun a => !p a) = l.length
  | [] => by simp
  | a :: l => by
    have ih := countP_bool_split p l
    cases h : p a <;> simp [List.countP_cons, h] <;> omega

@[simp] theorem exceptToOption_ok {ε α : Type} (a : α) :
    (Except.ok a : Except ε α).toOption = some a := rfl

@[simp] theorem exceptToOption_error {ε α : Type} (e : ε) :
    (Except.error e : Except ε α).toOption = none := rfl

@[simp] theorem exceptOk_ok {ε α : Type} (a : α) :
    exceptOk (Except.ok a : Except ε α) = true := rfl

@[simp] theorem exceptOk_error {ε α : Type} (e : ε) :
    exceptOk (Except.error e : Except ε α) = false := rfl

theorem length_filterMap_toOption {ε : Type} (proc : String → Except ε String) :
    ∀ urls : List String,
    (urls.filterMap (fun u => (proc u).toOption)).length =
      urls.countP (fun u => exceptOk (proc u))
  | [] => rfl
  | u :: us => by
    have ih := length_filterMap_toOption proc us
    cases h : proc u <;>
      simp [List.filterMap_cons, h, List.countP_cons, ih]

/-! ### Claim theorems -/

/-- C5: for `https://pandas.pydata.org/docs/user_guide/10min.html` the
resolved candidate list is exactly the original URL, the two stable-path
alternates, and the GitHub raw `.rst` mirror, in that order; and for every
URL the original URL is the first candidate. -/
theorem resolve_candidates_pandas_exact :
    robust_get_candidates "https://pandas.pydata.org/docs/user_guide/10min.html" =
      ["https://pandas.pydata.org/docs/user_guide/10min.html",
       "https://pandas.pydata.org/pandas-docs/version/stable/user_guide/10min.html",
       "https://pandas.pydata.org/pandas-docs/stable/user_guide/10min.html",
       "https://raw.githubusercontent.com/pandas-dev/pandas/main/doc/source/user_guide/10min.rst"] ∧
    ∀ url : String, (robust_get_candidates url).head? = some url :=
  ⟨by decide, fun _ => rfl⟩

/-- C7: every per-item error is caught at the driver loop: the OK counter
counts exactly the successful items, the FAIL counter exactly the failing
ones, each failure is recorded with its URL, the loop always completes with
`ok + fail = |urls|`, and the concrete three-URL run with one always-failing
item reports OK=2, FAIL=1. -/
theorem driver_isolates_item_failures {ε : Type} (proc : String → Except ε String)
    (urls priorLog : List String) :
    (mainRun proc urls priorLog).ok = urls.countP (fun u => exceptOk (proc u)) ∧
    (mainRun proc urls priorLog).fail = urls.countP (fun u => !exceptOk (proc u)) ∧
    (mainRun proc urls priorLog).failures = urls.filterMap (fun u =>
      match proc u with
      | Except.error e => some (u, e)
      | Except.ok _ => none) ∧
    (mainRun proc urls priorLog).ok + (mainRun proc urls priorLog).fail = urls.length ∧
    (mainRun procExample ["a", "b", "c"] []).ok = 2 ∧
    (mainRun procExample ["a", "b", "c"] []).fail = 1 := by
  have e1 : (mainRun proc urls priorLog).ok =
      urls.countP (fun u => exceptOk (proc u)) := by
    simpa [mainRun] using
      mainStep_fold_ok proc urls { ok := 0, fail := 0, log := [], failures := [] }
  have e2 : (mainRun proc urls priorLog).fail =
      urls.countP (fun u => !exceptOk (proc u)) := by
    simpa [mainRun] using
      mainStep_fold_fail proc urls { ok := 0, fail := 0, log := [], failures := [] }
  have e3 : (mainRun proc urls priorLog).failures = urls.filterMap (fun u =>
      match proc u with
      | Except.error e => some (u, e)
      | Except.ok _ => none) := by
    simpa [mainRun] using
      mainStep_fold_failures proc urls { ok := 0, fail := 0, log := [], failures := [] }
  refine ⟨e1, e2, e3, ?_, by decide, by decide⟩
  rw [e1, e2]
  exact countP_bool_split _ urls

/-- C8: the metadata log starts empty at each run (whatever `priorLog`
held), gains exactly one line per successful item and none for failures, so
its final length equals the OK count; and a second run over the same list —
whose truncation discards the first run's log — produces the identical
summary. -/
theorem metadata_log_reset_and_one_line_per_success {ε : Type}
    (proc : String → Except ε String) (urls priorLog : List String) :
    (mainRun proc urls priorLog).log =
      urls.filterMap (fun u => (proc u).toOption) ∧
    (mainRun proc urls priorLog).log.length = (mainRun proc urls priorLog).ok ∧
    mainRun proc urls ((mainRun proc urls priorLog).log) =
      mainRun proc urls priorLog := by
  have hlog : (mainRun proc urls priorLog).log =
      urls.filterMap (fun u => (proc u).toOption) := by
    simpa [mainRun] using
      mainStep_fold_log proc urls { ok := 0, fail := 0, log := [], failures := [] }
  have hok : (mainRun proc urls priorLog).ok =
      urls.countP (fun u => exceptOk (proc u)) := by
    simpa [mainRun] using
      mainStep_fold_ok proc urls { ok := 0, fail := 0, log := [], failures := [] }
  refine ⟨hlog, ?_, rfl⟩
  rw [hlog, hok]
  exact length_filterMap_toOption proc urls

/-- C10: whatever branch `download_one` takes, the primary artifact path,
the markdown-companion path, and the PDF render target are all built from
`filename_from_url url` — the ORIGINAL item URL — never from the fallback
`used_url` that actually served the content. -/
theorem artifact_paths_use_original_url
    (sha : List Nat → String) (encode : String → String → List Nat)
    (decode : List Nat → String → String) (extractTitle : String → String)
    (toMd : List Nat → String → Except Unit String) (ts url : String)
    (r : HttpResponse) (used_url : String) (render_pdf : Bool) :
    ((download_one sha encode decode extractTitle toMd ts url r used_url
        render_pdf).record.saved_as =
          "data/pdf/" ++ filename_from_url url ++ ".pdf" ∨
      (download_one sha encode decode extractTitle toMd ts url r used_url
        render_pdf).record.saved_as =
          "data/md/" ++ filename_from_url url ++ ".md" ∨
      (download_one sha encode decode extractTitle toMd ts url r used_url
        render_pdf).record.saved_as =
          "data/md/" ++ filename_from_url url ++ ".rst" ∨
      (download_one sha encode decode extractTitle toMd ts url r used_url
        render_pdf).record.saved_as =
          "data/html/" ++ filename_from_url url ++ ".html") ∧
    Option.all (fun p => p.1 == "data/md/" ++ filename_from_url url ++ ".md")
      (download_one sha encode decode extractTitle toMd ts url r used_url
        render_pdf).companion = true ∧
    Option.all (fun p => p == "data/pdf/" ++ filename_from_url url ++ ".pdf")
      (download_one sha encode decode extractTitle toMd ts url r used_url
        render_pdf).renderTarget = true := by
  unfold download_one
  cases hP : (ctypeOf r == "application/pdf" || pyEndsWith (pyLower used_url) ".pdf") <;>
    cases hA : pyEndsWith used_url ".md" <;>
      cases hB : strContains (ctypeOf r) "text/markdown" <;>
        cases hC : pyEndsWith used_url ".rst" <;>
          simp [hP, hA, hB, hC] <;> (repeat' split) <;> simp [Option.all]

/-- C2 (amended): the content kind `download_one` records follows
`classify_spec`: `pdf` first; then `markdown` ONLY when the served URL ends
in `.md`; then `rst` when the content type contains `text/markdown` or the
served URL ends in `.rst`; else `html` — and the persisted artifact carries
the matching extension.  (A `text/markdown` content type WITHOUT a `.md`
URL lands in the `rst` bucket, contrary to the original claim.) -/
theorem dispatch_matches_amended_classify
    (sha : List Nat → String) (encode : String → String → List Nat)
    (decode : List Nat → String → String) (extractTitle : String → String)
    (toMd : List Nat → String → Except Unit String) (ts url : String)
    (r : HttpResponse) (used_url : String) (render_pdf : Bool) :
    (download_one sha encode decode extractTitle toMd ts url r used_url
        render_pdf).record.content_type = classify_spec used_url (ctypeOf r) ∧
    pyEndsWith
      (download_one sha encode decode extractTitle toMd ts url r used_url
        render_pdf).record.saved_as
      (extForKind (classify_spec used_url (ctypeOf r))) = true := by
  unfold download_one classify_spec extForKind
  cases hP : (ctypeOf r == "application/pdf" || pyEndsWith (pyLower used_url) ".pdf") <;>
    cases hA : pyEndsWith used_url ".md" <;>
      cases hB : strContains (ctypeOf r) "text/markdown" <;>
        cases hC : pyEndsWith used_url ".rst" <;>
          simp [hP, hA, hB, hC, pyEndsWith_append]

/-- C2 counterexample: a response whose content type contains
`text/markdown` but whose served URL does not end in `.md` is recorded as
`rst` and saved with a `.rst` extension, not as `markdown` with `.md` as
the claim states. -/
theorem dispatch_markdown_ctype_counterexample :
    (download_one cSha cEncode cDecode cTitle cToMd "2026-01-01T00:00:00Z"
        "https://example.com/page" respMarkdownCtype "https://example.com/page"
        false).record.content_type = "rst" ∧
    (download_one cSha cEncode cDecode cTitle cToMd "2026-01-01T00:00:00Z"
        "https://example.com/page" respMarkdownCtype "https://example.com/page"
        false).record.content_type ≠ "markdown" ∧
    (download_one cSha cEncode cDecode cTitle cToMd "2026-01-01T00:00:00Z"
        "https://example.com/page" respMarkdownCtype "https://example.com/page"
        false).record.saved_as = "data/md/example-com-page.rst" := by
  decide

/-- C4 (amended): the `sha256` field always equals the digest oracle
applied to the RAW response bytes; in the `pdf` and `html` branches those
are exactly the bytes written to the artifact file, while the
`markdown`/`rst` branch writes the re-encoded decoded text instead, which
need not coincide with the hashed bytes. -/
theorem sha_digest_over_response_bytes
    (sha : List Nat → String) (encode : String → String → List Nat)
    (decode : List Nat → String → String) (extractTitle : String → String)
    (toMd : List Nat → String → Except Unit String) (ts url : String)
    (r : HttpResponse) (used_url : String) (render_pdf : Bool) :
    (download_one sha encode decode extractTitle toMd ts url r used_url
        render_pdf).record.sha256 = sha r.content ∧
    ((download_one sha encode decode extractTitle toMd ts url r used_url
        render_pdf).record.content_type = "markdown" ∨
      (download_one sha encode decode extractTitle toMd ts url r used_url
        render_pdf).record.content_type = "rst" ∨
      (download_one sha encode decode extractTitle toMd ts url r used_url
        render_pdf).fileBytes = r.content) := by
  unfold download_one
  cases hP : (ctypeOf r == "application/pdf" || pyEndsWith (pyLower used_url) ".pdf") <;>
    cases hA : pyEndsWith used_url ".md" <;>
      cases hB : strContains (ctypeOf r) "text/markdown" <;>
        cases hC : pyEndsWith used_url ".rst" <;>
          simp [hP, hA, hB, hC]

/-- C4 counterexample: in the `rst` branch the recorded digest (over the
raw response bytes `[255]`) differs from the digest of the bytes actually
written to disk (the re-encoded text, empty here) — so `sha256` is NOT the
hash of the exact bytes written for markdown/rst items. -/
theorem sha_not_over_written_bytes_counterexample :
    (download_one cSha cEncode cDecode cTitle cToMd "2026-01-01T00:00:00Z"
        "https://example.com/doc.rst" respRst "https://example.com/doc.rst"
        false).record.sha256 ≠
      cSha ((download_one cSha cEncode cDecode cTitle cToMd
        "2026-01-01T00:00:00Z" "https://example.com/doc.rst" respRst
        "https://example.com/doc.rst" false).fileBytes) := by
  decide

/-- Extractor oracles whose decode step fails — in Python an unknown
encoding name makes `bytes.decode(enc, errors="ignore")` raise
`LookupError` regardless of the `errors` argument. -/
def failDecodeLibs : ExtractorLibs Unit :=
  { decode := fun _ _ => Except.error (), summary := fun _ => Except.ok "x",
    mdifyF := fun _ => Except.ok "x", structuralMd := fun _ => Except.ok "x",
    fullParseClean := fun _ => Except.ok "x", flatten := fun _ => Except.ok "x" }

/-- Extractor oracles where the tiers inside the `try` fail and the
unprotected full-page fallback raises as well. -/
def failFallbackLibs : ExtractorLibs Unit :=
  { decode := fun _ _ => Except.ok "<html>", summary := fun _ => Except.error (),
    mdifyF := fun _ => Except.error (), structuralMd := fun _ => Except.error (),
    fullParseClean := fun _ => Except.error (), flatten := fun _ => Except.error () }

/-- Extractor oracles where every external call succeeds. -/
def goodLibs : ExtractorLibs Unit :=
  { decode := fun _ _ => Except.ok "", summary := fun _ => Except.ok "",
    mdifyF := fun _ => Except.ok "", structuralMd := fun _ => Except.ok "",
    fullParseClean := fun _ => Except.ok "", flatten := fun _ => Except.ok "" }

/-- C3 counterexample: `to_markdown_readability` CAN propagate an
exception to its caller — from the pre-`try` decode (first conjunct) or
from the unprotected full-page fallback (second conjunct).  The caller
`download_one` wraps the call in its own `try/except`; the function itself
does not satisfy the never-raises contract. -/
theorem extractor_can_raise_counterexample :
    to_markdown_readability failDecodeLibs true [] none = Except.error () ∧
    to_markdown_readability failFallbackLibs true [] none = Except.error () :=
  ⟨rfl, rfl⟩

/-- C3 (amended): failures inside the `try` block (readability summary,
markdownify on the article, the structural walk, or an empty summary) never
escape `to_markdown_readability`: whenever the initial decode succeeds and
the full-page fallback's own operations succeed, the function returns
normally.  Only the decode step and the full-page fallback can raise. -/
theorem extractor_contains_tier12_failures {ε : Type} (L : ExtractorLibs ε)
    (useMdify : Bool) (b : List Nat) (hint : Option String) (s c : String)
    (hdec : L.decode b (encOr hint) = Except.ok s)
    (hclean : L.fullParseClean s = Except.ok c)
    (hm : useMdify = true → exceptOk (L.mdifyF c) = true)
    (hf : useMdify = false → exceptOk (L.flatten c) = true) :
    exceptOk (to_markdown_readability L useMdify b hint) = true := by
  cases useMdify with
  | true =>
    have h2 := hm rfl
    unfold to_markdown_readability
    dsimp only
    rw [hdec]
    dsimp only
    cases htry : extractorTryBlock L true s with
    | some md => rfl
    | none =>
      unfold extractorFallback
      rw [hclean]
      dsimp only
      revert h2
      cases L.mdifyF c <;> intro h2
      · simp [exceptOk] at h2
      · rfl
  | false =>
    have h2 := hf rfl
    unfold to_markdown_readability
    dsimp only
    rw [hdec]
    dsimp only
    cases htry : extractorTryBlock L false s with
    | some md => rfl
    | none =>
      unfold extractorFallback
      rw [hclean]
      dsimp only
      revert h2
      cases L.flatten c <;> intro h2
      · simp [exceptOk] at h2
      · rfl

/-- Witness for the amended C3 theorem at concrete oracles. -/
theorem extractor_contains_tier12_failures_witness :
    goodLibs.decode [] (encOr none) = Except.ok "" ∧
    goodLibs.fullParseClean "" = Except.ok "" ∧
    exceptOk (to_markdown_readability goodLibs true [] none) = true :=
  ⟨rfl, rfl,
    extractor_contains_tier12_failures goodLibs true [] none "" "" rfl rfl
      (fun _ => rfl) (fun h => Bool.noConfusion h)⟩

theorem keepChar_isSlug (c c2 : Char) (h : keepChar c = some c2) :
    isSlugChar c2 = true := by
  unfold keepChar at h
  split at h
  · rename_i hdl
    injection h with h2
    subst h2
    simp [isSlugChar] at hdl ⊢
    tauto
  · split at h
    · rename_i p hp
      injection h with h2
      subst h2
      have hmem := List.mem_of_find?_eq_some hp
      have htab : ∀ q ∈ upperLowerTable, isSlugChar q.2 = true := by decide
      exact htab p hmem
    · cases h

theorem slugWords_chars : ∀ (cs acc : List Char), acc.all isSlugChar = true →
    ∀ w ∈ slugWords cs acc, w.all isSlugChar = true
  | [], acc, hacc => by
    intro w hw
    by_cases hacc2 : acc = []
    · simp [slugWords, hacc2] at hw
    · simp only [slugWords, if_neg hacc2, List.mem_singleton] at hw
      subst hw
      exact hacc
  | c :: rest, acc, hacc => by
    intro w hw
    cases hk : keepChar c with
    | some c2 =>
      simp only [slugWords, hk] at hw
      exact slugWords_chars rest (acc ++ [c2])
        (by simp [List.all_append, hacc, keepChar_isSlug c c2 hk]) w hw
    | none =>
      simp only [slugWords, hk] at hw
      by_cases hacc2 : acc = []
      · rw [if_pos hacc2] at hw
        exact slugWords_chars rest [] rfl w hw
      · rw [if_neg hacc2] at hw
        cases hw with
        | head => exact hacc
        | tail _ hw2 => exact slugWords_chars rest [] rfl w hw2

theorem joinHyphen_chars : ∀ ws : List (List Char),
    (∀ w ∈ ws, w.all isSlugChar = true) →
    (joinHyphen ws).all isSlugChar = true
  | [], _ => rfl
  | [w], h => by
    simpa [joinHyphen] using h w (by simp)
  | w :: v :: rest, h => by
    have h1 := h w (by simp)
    have h2 := joinHyphen_chars (v :: rest) (fun x hx => h x (by simp [hx]))
    have h3 : isSlugChar '-' = true := by decide
    simp [joinHyphen, List.all_append, List.all_cons, h1, h2, h3]

theorem slugify_chars (s : String) : (slugify s).toList.all isSlugChar = true :=
  joinHyphen_chars _ (slugWords_chars s.toList [] rfl)

theorem slugWords_eq_nil : ∀ (cs acc : List Char), slugWords cs acc = [] →
    acc = [] ∧ ∀ c ∈ cs, keepChar c = none
  | [], acc, h => by
    by_cases hacc2 : acc = []
    · exact ⟨hacc2, by intro c hc; cases hc⟩
    · simp only [slugWords, if_neg hacc2] at h
      simp at h
  | c :: rest, acc, h => by
    cases hk : keepChar c with
    | some c2 =>
      simp only [slugWords, hk] at h
      have h2 := (slugWords_eq_nil rest (acc ++ [c2]) h).1
      simp at h2
    | none =>
      simp only [slugWords, hk] at h
      by_cases hacc2 : acc = []
      · rw [if_pos hacc2] at h
        have h2 := slugWords_eq_nil rest [] h
        refine ⟨hacc2, ?_⟩
        intro x hx
        cases hx with
        | head => exact hk
        | tail _ hx2 => exact h2.2 x hx2
      · rw [if_neg hacc2] at h
        simp at h

theorem slugWords_of_all_none : ∀ cs : List Char,
    (∀ c ∈ cs, keepChar c = none) → slugWords cs [] = []
  | [], _ => rfl
  | c :: rest, h => by
    unfold slugWords
    rw [h c (by simp)]
    simpa using slugWords_of_all_none rest (fun x hx => h x (by simp [hx]))

theorem slugWords_mem_ne_nil : ∀ (cs acc : List Char),
    ∀ w ∈ slugWords cs acc, w ≠ []
  | [], acc => by
    intro w hw
    by_cases hacc2 : acc = []
    · simp [slugWords, hacc2] at hw
    · simp only [slugWords, if_neg hacc2, List.mem_singleton] at hw
      subst hw
      exact hacc2
  | c :: rest, acc => by
    intro w hw
    cases hk : keepChar c with
    | some c2 =>
      simp only [slugWords, hk] at hw
      exact slugWords_mem_ne_nil rest (acc ++ [c2]) w hw
    | none =>
      simp only [slugWords, hk] at hw
      by_cases hacc2 : acc = []
      · rw [if_pos hacc2] at hw
        exact slugWords_mem_ne_nil rest [] w hw
      · rw [if_neg hacc2] at hw
        cases hw with
        | head => exact hacc2
        | tail _ hw2 => exact slugWords_mem_ne_nil rest [] w hw2

theorem joinHyphen_eq_nil : ∀ ws : List (List Char),
    (∀ w ∈ ws, w ≠ []) → joinHyphen ws = [] → ws = []
  | [], _, _ => rfl
  | [w], h, hj => by
    exact absurd hj (h w (by simp))
  | w :: v :: rest, h, hj => by
    simp [joinHyphen] at hj

theorem slugify_eq_empty (s : String) (h : slugify s = "") :
    ∀ c ∈ s.toList, keepChar c = none := by
  unfold slugify at h
  have hl : joinHyphen (slugWords s.toList []) = [] := by
    have h2 := congrArg String.toList h
    simpa using h2
  have hw : slugWords s.toList [] = [] :=
    joinHyphen_eq_nil _ (slugWords_mem_ne_nil s.toList []) hl
  exact (slugWords_eq_nil s.toList [] hw).2

theorem slugify_empty_of_none (s : String)
    (h : ∀ c ∈ s.toList, keepChar c = none) : slugify s = "" := by
  unfold slugify
  rw [slugWords_of_all_none s.toList h]
  rfl

theorem trunc_slug_cases (host seg : String) :
    (if String.mk ((slugify (host ++ "-" ++ seg)).toList.take 120) = ""
      then slugify host
      else String.mk ((slugify (host ++ "-" ++ seg)).toList.take 120)).length ≤ 120 ∧
    (if String.mk ((slugify (host ++ "-" ++ seg)).toList.take 120) = ""
      then slugify host
      else String.mk ((slugify (host ++ "-" ++ seg)).toList.take 120)).toList.all
        isSlugChar = true := by
  by_cases hb : String.mk ((slugify (host ++ "-" ++ seg)).toList.take 120) = ""
  · rw [if_pos hb]
    have h0 : (slugify (host ++ "-" ++ seg)).toList.take 120 = [] := by
      have h2 := congrArg String.toList hb
      simpa using h2
    have h1 : (slugify (host ++ "-" ++ seg)).toList = [] := by
      rcases List.take_eq_nil_iff.mp h0 with h | h
      all_goals first
      | exact h
      | exact absurd h (by decide)
    have h2 : slugify (host ++ "-" ++ seg) = "" := by
      apply String.ext
      simpa [String.toList] using h1
    have h3 : ∀ c ∈ (host ++ "-" ++ seg).toList, keepChar c = none :=
      slugify_eq_empty _ h2
    have h4 : slugify host = "" := by
      apply slugify_empty_of_none host
      intro c hc
      apply h3
      show c ∈ (host.toList ++ ['-']) ++ seg.toList
      exact List.mem_append_left _ (List.mem_append_left _ hc)
    rw [h4]
    exact ⟨by simp, rfl⟩
  · rw [if_neg hb]
    constructor
    · show ((slugify (host ++ "-" ++ seg)).toList.take 120).length ≤ 120
      exact List.length_take_le 120 _
    · have hall := slugify_chars (host ++ "-" ++ seg)
      show ((slugify (host ++ "-" ++ seg)).toList.take 120).all isSlugChar = true
      rw [List.all_eq_true] at hall ⊢
      intro x hx
      exact hall x (List.take_subset _ _ hx)

/-- C9 (amended): `filename_from_url` is a deterministic function whose
result is at most 120 characters long and contains only lowercase ASCII
letters, digits, and hyphens; it is formed — as `deriveBaseName_spec`
states — from the host with EVERY occurrence of `"www."` removed (not just
a leading one) joined to the last non-empty path segment (default
`"index"`), slugified and truncated; the result can be empty when the URL
offers no alphanumeric characters. -/
theorem derive_base_name_amended (url : String) :
    filename_from_url url = deriveBaseName_spec url ∧
    (filename_from_url url).length ≤ 120 ∧
    (filename_from_url url).toList.all isSlugChar = true := by
  constructor
  · rfl
  · have h := trunc_slug_cases
      (pyReplace (urlparse url).netloc "www." "")
      (if (pySplit (rstripSlash (urlparse url).path) "/").getLastD "" = ""
        then "index" else (pySplit (rstripSlash (urlparse url).path) "/").getLastD "")
    exact h

/-- C9 counterexample: `filename_from_url` is NOT always non-empty (a URL
with no alphanumeric characters yields `""`), and it removes every
occurrence of `"www."` from the host, not only a leading one
(`awww.example.com` becomes `aexample`, not `awww-example`). -/
theorem filename_claim_counterexample :
    filename_from_url "https://@@/@@" = "" ∧
    filename_from_url "https://awww.example.com/page" = "aexample-com-page" := by
  decide

/-- The MDN Promise reference URL from the source's URL list. -/
def promiseUrl : String :=
  "https://developer.mozilla.org/en-US/docs/Web/JavaScript/Reference/Global_Objects/Promise"

/-- C6: for every URL mentioning `developer.mozilla.org` whose path has a
`docs` segment, the LAST resolved candidate is the GitHub raw-content URL
built from exactly the path segments after the first `docs` segment, each
lowercased with periods replaced by hyphens, ending in `index.md`. -/
theorem mdn_last_candidate (url : String) (i : Nat)
    (h1 : strContains url "developer.mozilla.org" = true)
    (h2 : (pathParts url).findIdx? (fun p => p == "docs") = some i) :
    (robust_get_candidates url).getLast? =
      some ("https://raw.githubusercontent.com/mdn/content/main/" ++
        String.intercalate "/" (["files"] ++
          ((pathParts url).drop (i + 1)).map
            (fun p => pyReplace (pyLower p) "." "-") ++
          ["index.md"])) := by
  have hm : mdn_raw_fallback url =
      some ("https://raw.githubusercontent.com/mdn/content/main/" ++
        String.intercalate "/" (["files"] ++
          ((pathParts url).drop (i + 1)).map
            (fun p => pyReplace (pyLower p) "." "-") ++
          ["index.md"])) := by
    unfold mdn_raw_fallback
    rw [h1]
    simp [h2]
  unfold robust_get_candidates
  simp only [h1, if_true, hm]
  exact List.getLast?_concat _

/-- Witness for C6 at the MDN Promise reference URL. -/
theorem mdn_last_candidate_witness :
    strContains promiseUrl "developer.mozilla.org" = true ∧
    (pathParts promiseUrl).findIdx? (fun p => p == "docs") = some 1 ∧
    (robust_get_candidates promiseUrl).getLast? =
      some "https://raw.githubusercontent.com/mdn/content/main/files/web/javascript/reference/global_objects/promise/index.md" := by
  refine ⟨by decide, by decide, ?_⟩
  have h := mdn_last_candidate promiseUrl 1 (by decide) (by decide)
  rw [h]
  decide

theorem tripleAttempts_length : ∀ cs : List String,
    (tripleAttempts cs).length = 3 * cs.length
  | [] => rfl
  | c :: rest => by
    simp [tripleAttempts, tripleAttempts_length rest]
    omega

theorem runAttempts_allFail {ε ρ : Type} (net : String → Nat → Except ε ρ)
    (cand : String) (errs : Nat → ε)
    (h : ∀ a, net cand a = Except.error (errs a)) (le : Option ε) :
    runAttempts net cand (List.range' 1 MAX_RETRIES) le =
      ([(cand, 1), (cand, 2), (cand, 3)], [2, 4],
        (Except.error (some (errs 3)) : Except (Option ε) ρ)) := by
  have hr : List.range' 1 MAX_RETRIES = [1, 2, 3] := rfl
  rw [hr]
  simp [runAttempts, h 1, h 2, h 3, RETRY_BACKOFF]

theorem runAttempts_firstOk {ε ρ : Type} (net : String → Nat → Except ε ρ)
    (cand : String) (r : ρ) (h : net cand 1 = Except.ok r) (le : Option ε) :
    runAttempts net cand (List.range' 1 MAX_RETRIES) le =
      ([(cand, 1)], [], Except.ok r) := by
  have hr : List.range' 1 MAX_RETRIES = [1, 2, 3] := rfl
  rw [hr]
  simp [runAttempts, h]

theorem runCandidates_allFail {ε ρ : Type} (net : String → Nat → Except ε ρ)
    (errs : String → Nat → ε) :
    ∀ (cs : List String) (le : Option ε),
    (∀ c ∈ cs, ∀ a, net c a = Except.error (errs c a)) →
    runCandidates net cs le =
      ⟨tripleAttempts cs, allSleeps cs,
        (Except.error (match cs.getLast? with
          | some clast => some (errs clast 3)
          | none => le) : Except (Option ε) (ρ × String))⟩
  | [], le, h => by
    simp [runCandidates, tripleAttempts, allSleeps]
  | c :: rest, le, h => by
    have hc : ∀ a, net c a = Except.error (errs c a) := fun a => h c (by simp) a
    have ht := runAttempts_allFail net c (errs c) hc le
    cases rest with
    | nil =>
      simp [runCandidates, ht, tripleAttempts, allSleeps]
    | cons c2 rest2 =>
      have ih := runCandidates_allFail net errs (c2 :: rest2) (some (errs c 3))
        (fun x hx a => h x (by simp [hx]) a)
      rw [runCandidates, ht]
      dsimp only
      rw [ih]
      simp only [tripleAttempts, allSleeps, List.getLast?_cons_cons,
        FetchTrace.mk.injEq, List.append_assoc, List.cons_append, List.nil_append]
      refine ⟨trivial, trivial, ?_⟩
      cases hgl : (c2 :: rest2).getLast? with
      | some x => rfl
      | none => simp at hgl

theorem runCandidates_firstSuccess {ε ρ : Type} (net : String → Nat → Except ε ρ)
    (errs : String → Nat → ε) (r : ρ) (succ : String)
    (hs : net succ 1 = Except.ok r) :
    ∀ (fails rest : List String) (le : Option ε),
    (∀ c ∈ fails, ∀ a, net c a = Except.error (errs c a)) →
    runCandidates net (fails ++ succ :: rest) le =
      ⟨tripleAttempts fails ++ [(succ, 1)], allSleeps fails,
        Except.ok (r, succ)⟩
  | [], rest, le, _ => by
    simp [runCandidates, runAttempts_firstOk net succ r hs le, tripleAttempts,
      allSleeps]
  | c :: fails2, rest, le, h => by
    have hc : ∀ a, net c a = Except.error (errs c a) := fun a => h c (by simp) a
    have ht := runAttempts_allFail net c (errs c) hc le
    have ih := runCandidates_firstSuccess net errs r succ hs fails2 rest
      (some (errs c 3)) (fun x hx a => h x (by simp [hx]) a)
    show runCandidates net (c :: (fails2 ++ succ :: rest)) le = _
    rw [runCandidates, ht]
    dsimp only
    rw [ih]
    simp [tripleAttempts, allSleeps]

/-- C1: the fetcher contract.  First conjunct: `robust_get` is exactly the
candidate loop over `robust_get_candidates url` (candidates in order).
Second: when every candidate in `fails` always fails and `succ` succeeds on
its first try, the loop attempts each failing candidate exactly three
times (attempt numbers 1,2,3), sleeps `2**1` and `2**2` seconds per failing
candidate (never after a final try), stops at `succ` without touching later
candidates, and returns the response paired with `succ` as the serving URL.
Third: when every candidate always fails, the loop performs exactly
`3 * len(candidates)` attempts, sleeps `2**1, 2**2` per candidate, and
raises the most recent error — the last candidate's third-attempt error. -/
theorem fetcher_retry_contract {ε ρ : Type} :
    (∀ (net : String → Nat → Except ε ρ) (url : String),
      robust_get net url = runCandidates net (robust_get_candidates url) none) ∧
    (∀ (net : String → Nat → Except ε ρ) (errs : String → Nat → ε) (r : ρ)
      (fails rest : List String) (succ : String),
      (∀ c ∈ fails, ∀ a, net c a = Except.error (errs c a)) →
      net succ 1 = Except.ok r →
      runCandidates net (fails ++ succ :: rest) none =
        ⟨tripleAttempts fails ++ [(succ, 1)], allSleeps fails,
          Except.ok (r, succ)⟩) ∧
    (∀ (net : String → Nat → Except ε ρ) (errs : String → Nat → ε)
      (cs0 : List String) (clast : String),
      (∀ c ∈ cs0 ++ [clast], ∀ a, net c a = Except.error (errs c a)) →
      runCandidates net (cs0 ++ [clast]) none =
        ⟨tripleAttempts (cs0 ++ [clast]), allSleeps (cs0 ++ [clast]),
          Except.error (some (errs clast 3))⟩ ∧
      (tripleAttempts (cs0 ++ [clast])).length = 3 * (cs0 ++ [clast]).length) := by
  refine ⟨fun net url => rfl, ?_, ?_⟩
  · intro net errs r fails rest succ hf hs
    exact runCandidates_firstSuccess net errs r succ hs fails rest none hf
  · intro net errs cs0 clast hf
    refine ⟨?_, tripleAttempts_length _⟩
    have h := runCandidates_allFail net errs (cs0 ++ [clast]) none hf
    rw [h, List.getLast?_concat]

/-- A network oracle for the C1 witness: candidate `"s"` succeeds
immediately with response `7`, every other candidate fails attempt `a`
with error `a`. -/
def netA : String → Nat → Except Nat Nat :=
  fun c a => if c = "s" then Except.ok 7 else Except.error a

/-- A network oracle for the C1 witness where every attempt fails with an
error naming the candidate and the attempt. -/
def netB : String → Nat → Except (String × Nat) Nat :=
  fun c a => Except.error (c, a)

/-- Witness for the C1 fetcher contract at concrete candidate lists. -/
theorem fetcher_retry_contract_witness :
    runCandidates netA (["f1", "f2"] ++ "s" :: ["x"]) none =
      ⟨tripleAttempts ["f1", "f2"] ++ [("s", 1)], allSleeps ["f1", "f2"],
        Except.ok (7, "s")⟩ ∧
    runCandidates netB (["a"] ++ ["b"]) none =
      ⟨tripleAttempts (["a"] ++ ["b"]), allSleeps (["a"] ++ ["b"]),
        Except.error (some ("b", 3))⟩ := by
  constructor
  · exact fetcher_retry_contract.2.1 netA (fun _ a => a) 7 ["f1", "f2"] ["x"] "s"
      (by
        intro c hc a
        simp at hc
        rcases hc with rfl | rfl <;> rfl)
      rfl
  · exact (fetcher_retry_contract.2.2 netB (fun c a => (c, a)) ["a"] "b"
      (fun c _ a => rfl)).1
